import Mathlib

/-!
Verification model of the FaceRecognitionSystem repository.

The development shallowly embeds the core data model and operations:

* the Milvus `face_datastore` collection (`face_database_manager.py`) as a
  list of rows (`Row`), with `register_person`, `remove_person`,
  `list_registered_persons` and `_save_metadata` as functions on that list;
* the Milvus-backed matcher `FaceRecognitionSystem._find_best_match`
  (`recognition_system.py`) and the flat-file matcher loop of
  `attendance_system.py` as decision procedures;
* the attendance-marking part of `recognize_from_webcam`
  (`recognition_system.py`) as a step function on a session state
  (ledger rows plus the `recognized_persons` set).

Numeric embeddings are lists of rationals.  Cosine similarity
(`np.dot(e, d) / (|e| * |d|)` in `attendance_system.py`, Milvus
`metric_type = "COSINE"` in the indexed backend) is irrational-valued in
general; both backends apply the same metric, so the model takes the
per-entry similarity score of the current query as a rational input (a
score function `Row → ℚ` for the indexed backend, the paired score in the
flat backend's database list) and embeds the decision logic downstream of
the score exactly as written in the source.
-/

/-- One row of the Milvus `face_datastore` collection, following the schema
of `FaceDatabaseManager._create_datastore_collection`
(`face_database_manager.py`): primary key `id`, a 512-dim float vector
`embedding`, scalar fields, `is_embedding` stored as INT8 (0 = metadata row,
1 = embedding row), and `sample_index` (-1 for metadata rows). -/
structure Row where
  id : String
  embedding : List ℚ
  registration_number : String
  full_name : String
  mobile_number : String
  registration_date : String
  is_embedding : Int
  sample_count : Int
  sample_index : Int
deriving DecidableEq, Repr

/-- A sample embedding file on disk in `samples_dir`, identified by its
relative path (`face_samples/{reg}_{i}.npy` or `face_samples/{reg}/{i}.npy`)
with the stored numpy array as contents. -/
structure SampleFile where
  name : String
  contents : List ℚ
deriving DecidableEq, Repr

/-- Errors raised by `FaceDatabaseManager` (`ValueError` with the
corresponding message in the Python source). -/
inductive EnrollError where
  | alreadyExists (reg : String)
  | noSamples (reg : String)
  | notFound (reg : String)
deriving DecidableEq, Repr

/-- `name` matches the shell glob `pre*suff` — the only pattern shape
`register_person` globs with: the name is at least as long as the two fixed
parts together, starts with `pre` and ends with `suff` (matching on the
character lists). -/
def matchesGlob (pre suff name : String) : Bool :=
  decide (pre.data.length + suff.data.length ≤ name.data.length) &&
  pre.data.isPrefixOf name.data &&
  suff.data.reverse.isPrefixOf name.data.reverse

/-- `glob.glob(os.path.join(samples_dir, f"{reg}_*.npy"))` in
`register_person`: the sample files whose name matches `{reg}_*.npy`. -/
def globPrimary (fs : List SampleFile) (reg : String) : List SampleFile :=
  fs.filter (fun f => matchesGlob (reg ++ "_") ".npy" f.name)

/-- `glob.glob(os.path.join(samples_dir, reg, "*.npy"))`: the alternative
pattern, a per-person subdirectory of `.npy` files. -/
def globAlt (fs : List SampleFile) (reg : String) : List SampleFile :=
  fs.filter (fun f => matchesGlob (reg ++ "/") ".npy" f.name)

/-- The `embedding_files` list that `register_person` ends up reading: the
primary glob, or if it is empty the alternative glob. -/
def embeddingFilesFor (fs : List SampleFile) (reg : String) : List SampleFile :=
  let primary := globPrimary fs reg
  if primary.isEmpty then globAlt fs reg else primary

/-- The embedding row `register_person` builds for the `i`-th sample file
(`ids.append(f"{reg}_emb_{i}")`, `is_embeddings.append(1)`,
`sample_counts.append(num_samples)`, `sample_indices.append(i)`). -/
def embRowOf (reg fullName mobile today : String) (n : Int)
    (p : Nat × SampleFile) : Row :=
  { id := reg ++ "_emb_" ++ toString p.1
    embedding := p.2.contents
    registration_number := reg
    full_name := fullName
    mobile_number := mobile
    registration_date := today
    is_embedding := 1
    sample_count := n
    sample_index := (p.1 : Int) }

/-- The metadata row `register_person` builds
(`ids.append(f"{reg}_meta")`, dummy all-zero 512-dim vector,
`is_embeddings.append(0)`, `sample_indices.append(-1)`). -/
def metaRowOf (reg fullName mobile today : String) (n : Int) : Row :=
  { id := reg ++ "_meta"
    embedding := List.replicate 512 (0 : ℚ)
    registration_number := reg
    full_name := fullName
    mobile_number := mobile
    registration_date := today
    is_embedding := 0
    sample_count := n
    sample_index := -1 }

/-- `FaceDatabaseManager.register_person` (`face_database_manager.py`).
State: the datastore rows and the sample-file directory.  The current date
(`_get_current_date`) is passed in as `today`.  Steps, in source order:
query for an existing metadata row with this registration number
(`registration_number == reg && is_embedding == 0`) and raise
`alreadyExists` if found; glob for sample files and raise `noSamples` when
both patterns are empty; build one embedding row per sample file plus the
metadata row; insert all rows; finally delete every read sample file from
disk (`os.remove`, identified by path). -/
def register_person (rows : List Row) (fs : List SampleFile)
    (reg fullName mobile today : String) :
    Except EnrollError (List Row × List SampleFile) :=
  if !(rows.filter
        (fun r => r.registration_number == reg && r.is_embedding == 0)).isEmpty then
    .error (.alreadyExists reg)
  else
    let files := embeddingFilesFor fs reg
    if files.isEmpty then
      .error (.noSamples reg)
    else
      .ok (rows ++ files.enum.map (embRowOf reg fullName mobile today files.length)
             ++ [metaRowOf reg fullName mobile today files.length],
           fs.filter (fun f => !((files.map (fun x => x.name)).contains f.name)))

/-- The caller-visible state after `register_person`: a raised `ValueError`
happens before any insert and before any file cleanup, so on the error path
the datastore and the samples directory are exactly as before. -/
def registerOrKeep (rows : List Row) (fs : List SampleFile)
    (reg fullName mobile today : String) : List Row × List SampleFile :=
  match register_person rows fs reg fullName mobile today with
  | .ok st => st
  | .error _ => (rows, fs)

/-- `FaceDatabaseManager.remove_person`: query every row with this
registration number, raise `notFound` if there is none, otherwise delete by
the collected primary-key list (`id in [...]`). -/
def remove_person (rows : List Row) (reg : String) :
    Except EnrollError (List Row) :=
  let results := rows.filter (fun r => r.registration_number == reg)
  if results.isEmpty then
    .error (.notFound reg)
  else
    let idsToDelete := results.map (fun r => r.id)
    .ok (rows.filter (fun r => !(idsToDelete.contains r.id)))

/-- `FaceDatabaseManager.list_registered_persons`: query the metadata rows
(`is_embedding == 0`) and return, per row, the registration number with its
stored attributes (here the name; the other attributes play no role in the
claims). -/
def list_registered_persons (rows : List Row) : List (String × String) :=
  (rows.filter (fun r => r.is_embedding == 0)).map
    (fun r => (r.registration_number, r.full_name))

/-- The per-person metadata dictionary value handed to
`FaceDatabaseManager._save_metadata`. -/
structure PersonMeta where
  full_name : String
  mobile_number : String
  registration_date : String
  sample_count : Int
deriving DecidableEq, Repr

/-- `FaceDatabaseManager._save_metadata`: build one metadata row per entry
of the dictionary (`is_embedding = False`, `sample_index = -1`; the insert
supplies no primary key and no vector, modelled as blanks); then, if the
collection already holds any entities, DROP the whole collection and
recreate it empty before inserting, otherwise insert into the existing
collection.  The resulting datastore therefore consists of the new metadata
rows alone whenever the collection was non-empty. -/
def save_metadata (rows : List Row) (metadata : List (String × PersonMeta)) :
    List Row :=
  let newRows := metadata.map (fun p =>
    { id := ""
      embedding := []
      registration_number := p.1
      full_name := p.2.full_name
      mobile_number := p.2.mobile_number
      registration_date := p.2.registration_date
      is_embedding := 0
      sample_count := p.2.sample_count
      sample_index := -1 : Row })
  if rows.length > 0 then newRows else rows ++ newRows

/-! ## The indexed (Milvus) matcher, `recognition_system.py` -/

/-- One comparison step of a top-1 maximum-score selection: keep the
better-scoring row, the incumbent on ties. -/
def topFold (score : Row → ℚ) (acc : Option Row) (r : Row) : Option Row :=
  match acc with
  | none => some r
  | some b => if score r > score b then some r else some b

/-- The Milvus vector search issued by
`FaceRecognitionSystem._find_best_match`: `metric_type = "COSINE"`,
`limit = 1`, `expr = "is_embedding == 1"`.  Milvus computes the cosine
scores internally (an external collaborator); the model takes the score
assignment of the current query as `score` and returns the highest-scoring
row among the rows that pass the `is_embedding == 1` filter (the earliest
such row on ties), or `none` when no row passes the filter. -/
def milvusTopOne (score : Row → ℚ) (rows : List Row) : Option Row :=
  (rows.filter (fun r => r.is_embedding == 1)).foldl (topFold score) none

/-- `FaceRecognitionSystem._load_person_database`: query the metadata rows
(`is_embedding == 0`) of `face_datastore` and build the
`registration_number → full_name` dictionary; an empty dictionary when the
collection does not exist or the query fails. -/
def load_person_database (hasColl : Bool) (rows : List Row) :
    List (String × String) :=
  if hasColl then
    (rows.filter (fun r => r.is_embedding == 0)).map
      (fun r => (r.registration_number, r.full_name))
  else []

/-- `metadata.get(reg_num, {}).get("full_name", "Unknown")`: dictionary
lookup with default `"Unknown"`; a Python dict keeps the last write for a
duplicated key, hence the reversed search. -/
def lookupName (db : List (String × String)) (reg : String) : String :=
  match db.reverse.find? (fun p => p.1 == reg) with
  | some p => p.2
  | none => "Unknown"

/-- `FaceRecognitionSystem._find_best_match` (`recognition_system.py`):
return `(None, None, 0.0)` when the whole `try` block raises (modelled by
`searchFails`, covering Milvus connection/search errors) or when the
`face_datastore` collection does not exist; otherwise take the top-1 COSINE
search result restricted to `is_embedding == 1`; if there is one and its
similarity is `>= self.threshold` (inclusive), return its registration
number, the name looked up from the metadata rows, and the similarity;
in every other case return `(None, None, 0.0)`. -/
def find_best_match (score : Row → ℚ) (threshold : ℚ) (hasColl : Bool)
    (rows : List Row) (searchFails : Bool) :
    Option String × Option String × ℚ :=
  if searchFails then (none, none, 0)
  else if !hasColl then (none, none, 0)
  else
    match milvusTopOne score rows with
    | none => (none, none, 0)
    | some top =>
        let similarity := score top
        if similarity ≥ threshold then
          (some top.registration_number,
           some (lookupName (load_person_database hasColl rows)
                  top.registration_number),
           similarity)
        else (none, none, 0)

/-! ## The flat-file matcher, `attendance_system.py` -/

/-- One iteration of the matching loop in `mark_attendance`
(`attendance_system.py` lines 71-78).  The accumulator is
`(min_distance, recognized_id)`; `min_distance` starts as `float('inf')`,
modelled as `none`.  For the current database entry the loop computes the
cosine similarity (carried as the rational `e.2`), sets
`distance = 1.0 - similarity`, and updates the accumulator when
`distance < min_distance and distance < 0.4`. -/
def flatStep (acc : Option ℚ × Option String) (e : String × ℚ) :
    Option ℚ × Option String :=
  let distance := 1 - e.2
  let ltMin : Bool :=
    match acc.1 with
    | none => true
    | some m => distance < m
  if ltMin && distance < 2/5 then (some distance, some e.1) else acc

/-- The recognized id produced by the flat-file backend's matching loop for
one detected face: fold `flatStep` over the `face_db` entries (person id
paired with the cosine similarity of the query to that person's stored
embedding) starting from `(inf, None)`. -/
def flatRecognize (faceDb : List (String × ℚ)) : Option String :=
  (faceDb.foldl flatStep (none, none)).2

/-! ## The attendance-marking session, `recognize_from_webcam` -/

/-- The state the recognition loop threads through attendance marking: the
rows of today's `attendance_{date}.csv` (header included) and the
`recognized_persons` set. -/
structure LoopState where
  ledger : List (List String)
  recognized : List String
deriving DecidableEq, Repr

/-- Session start (`recognize_from_webcam` lines 138-150, with
`mark_attendance` on): `recognized_persons = set()` — initialized empty,
nothing is read back from the persisted file — and the attendance file is
created with the header row `['ID', 'Name', 'Time', 'Status']` only when it
does not already exist. -/
def sessionStart (existing : Option (List (List String))) : LoopState :=
  { ledger :=
      match existing with
      | some rows => rows
      | none => [["ID", "Name", "Time", "Status"]]
    recognized := [] }

/-- The attendance-marking step for a recognized registration number
(`recognize_from_webcam` lines 209-216): when the id is not yet in
`recognized_persons`, append `[reg, full_name, now, 'Present']` to the csv
and add the id to the set; otherwise do nothing.  The boolean reports
whether a row was appended. -/
def markStep (st : LoopState) (reg fullName now : String) :
    LoopState × Bool :=
  if st.recognized.contains reg then (st, false)
  else
    ({ ledger := st.ledger ++ [[reg, fullName, now, "Present"]]
       recognized := reg :: st.recognized }, true)

/-- The same dedup-and-append step in `attendance_system.py`
(lines 86-92), whose csv schema has no name column:
append `[recognized_id, now, 'Present']` when the id is not in
`marked_attendance`. -/
def markStepFlat (st : LoopState) (reg now : String) : LoopState × Bool :=
  if st.recognized.contains reg then (st, false)
  else
    ({ ledger := st.ledger ++ [[reg, now, "Present"]]
       recognized := reg :: st.recognized }, true)

/-- The per-detected-face attendance handling of `recognize_from_webcam`
(lines 186-220), given the `_find_best_match` output: when
`registration_number` is truthy (not `None`, not the empty string) and
`mark_attendance` is on, run the dedup-and-append step; otherwise (the
"Unknown" branch, or marking disabled) the ledger state is untouched. -/
def processFace (markAtt : Bool) (reg : Option String) (fullName now : String)
    (st : LoopState) : LoopState :=
  match reg with
  | none => st
  | some r =>
      if r == "" then st
      else if markAtt then (markStep st r fullName now).1
      else st

/-- Number of `Present` data rows a csv holds for a given id (first column
the id, last column the status). -/
def presentRowsFor (ledger : List (List String)) (reg : String) : Nat :=
  (ledger.filter
    (fun row => row.head? == some reg && row.getLast? == some "Present")).length

/-! ## Concrete demo data used by witnesses and counterexamples -/

/-- A concrete embedding row, as `register_person` inserts for the first
sample of person `p1`. -/
def sampleEmbRow : Row :=
  { id := "p1_emb_0"
    embedding := [1, 0]
    registration_number := "p1"
    full_name := "Alice"
    mobile_number := ""
    registration_date := "2026-01-15"
    is_embedding := 1
    sample_count := 1
    sample_index := 0 }

/-- The matching metadata row `register_person` inserts for person `p1`
(dummy zero vector, `is_embedding = 0`, `sample_index = -1`). -/
def sampleMetaRow : Row :=
  { id := "p1_meta"
    embedding := List.replicate 512 (0 : ℚ)
    registration_number := "p1"
    full_name := "Alice"
    mobile_number := ""
    registration_date := "2026-01-15"
    is_embedding := 0
    sample_count := 1
    sample_index := -1 }

/-! ## Theorems -/

/-- C2 counterexample: the persisted ledger for today already holds a
`Present` row for `p1` from an earlier process run; a new session starts
with an empty `recognized_persons` set, so recognizing `p1` again appends a
second `Present` row for the same identity to the same date's file —
refuting the claim that the set is rebuilt from the persisted ledger and
that at most one `Present` row per identity exists across restarts. -/
theorem C2_counterexample :
    (sessionStart (some [["ID", "Name", "Time", "Status"],
        ["p1", "Alice", "09:00:00", "Present"]])).recognized = [] ∧
    (markStep (sessionStart (some [["ID", "Name", "Time", "Status"],
        ["p1", "Alice", "09:00:00", "Present"]])) "p1" "Alice" "10:00:00").2
      = true ∧
    presentRowsFor
      (markStep (sessionStart (some [["ID", "Name", "Time", "Status"],
        ["p1", "Alice", "09:00:00", "Present"]])) "p1" "Alice" "10:00:00").1.ledger
      "p1" = 2 := by
  refine ⟨rfl, rfl, rfl⟩

/-- C2 (amended): at session start `recognized_persons` is initialized
empty — it is not rebuilt from the persisted ledger — so the first
recognition of any identity in a new session always appends a row, whatever
the persisted file already contains; de-duplication therefore holds only
within one process run. -/
theorem C2_session_set_starts_empty (existing : Option (List (List String)))
    (reg fullName now : String) :
    (sessionStart existing).recognized = [] ∧
    (markStep (sessionStart existing) reg fullName now).2 = true ∧
    (markStep (sessionStart existing) reg fullName now).1.ledger
      = (sessionStart existing).ledger ++ [[reg, fullName, now, "Present"]] := by
  refine ⟨rfl, ?_, ?_⟩ <;> simp [sessionStart, markStep]

/-- C4: within one ledger lifetime, the first mark of an identity appends
exactly one `Present` row and reports `true`; any later mark of the same
identity reports `false` and leaves both the csv rows and the
`recognized_persons` set untouched (and likewise for the flat-file
variant of the marking step). -/
theorem C4_mark_idempotent (st : LoopState) (reg n1 t1 n2 t2 : String)
    (h : st.recognized.contains reg = false) :
    (markStep st reg n1 t1).2 = true ∧
    (markStep st reg n1 t1).1.ledger = st.ledger ++ [[reg, n1, t1, "Present"]] ∧
    markStep (markStep st reg n1 t1).1 reg n2 t2
      = ((markStep st reg n1 t1).1, false) ∧
    (∀ st' : LoopState, ∀ n t : String, st'.recognized.contains reg = true →
      markStep st' reg n t = (st', false)) ∧
    (markStepFlat st reg t1).2 = true ∧
    markStepFlat (markStepFlat st reg t1).1 reg t2
      = ((markStepFlat st reg t1).1, false) := by
  have hmem : reg ∉ st.recognized := by simpa using h
  refine ⟨?_, ?_, ?_, ?_, ?_, ?_⟩
  · simp [markStep, hmem]
  · simp [markStep, hmem]
  · simp [markStep, hmem]
  · intro st' n t h'
    have h'' : reg ∈ st'.recognized := by simpa using h'
    simp [markStep, h'']
  · simp [markStepFlat, hmem]
  · simp [markStepFlat, hmem]

/-- C4 witness: a fresh session, identity `p1` marked at 09:00 then seen
again at 10:00. -/
theorem C4_witness :
    (sessionStart none).recognized.contains "p1" = false ∧
    ((markStep (sessionStart none) "p1" "Alice" "09:00:00").2 = true ∧
     (markStep (sessionStart none) "p1" "Alice" "09:00:00").1.ledger
       = (sessionStart none).ledger ++ [["p1", "Alice", "09:00:00", "Present"]] ∧
     markStep (markStep (sessionStart none) "p1" "Alice" "09:00:00").1
         "p1" "Alice" "10:00:00"
       = ((markStep (sessionStart none) "p1" "Alice" "09:00:00").1, false) ∧
     (∀ st' : LoopState, ∀ n t : String, st'.recognized.contains "p1" = true →
        markStep st' "p1" n t = (st', false)) ∧
     (markStepFlat (sessionStart none) "p1" "09:00:00").2 = true ∧
     markStepFlat (markStepFlat (sessionStart none) "p1" "09:00:00").1
         "p1" "10:00:00"
       = ((markStepFlat (sessionStart none) "p1" "09:00:00").1, false)) :=
  ⟨rfl, C4_mark_idempotent (sessionStart none) "p1" "Alice" "09:00:00"
      "Alice" "10:00:00" rfl⟩

/-- Each `flatStep` iteration either records the current entry (which then
passed the strict distance test) or leaves the accumulator unchanged. -/
theorem flatStep_cases (acc : Option ℚ × Option String) (e : String × ℚ) :
    (flatStep acc e = (some (1 - e.2), some e.1) ∧ 1 - e.2 < 2/5) ∨
    flatStep acc e = acc := by
  obtain ⟨a1, a2⟩ := acc
  unfold flatStep
  cases a1 with
  | none => by_cases hc : 1 - e.2 < 2/5 <;> simp [hc]
  | some m =>
      by_cases h1 : 1 - e.2 < m <;> by_cases hc : 1 - e.2 < 2/5 <;>
        simp [h1, hc]

/-- Once the flat matching loop has recognized someone, later iterations
never clear the recognized id. -/
theorem flatStep_keeps_some (acc : Option ℚ × Option String) (e : String × ℚ)
    (h : acc.2.isSome) : ((flatStep acc e).2).isSome := by
  rcases flatStep_cases acc e with ⟨hEq, _⟩ | hEq <;> rw [hEq]
  · simp
  · exact h

/-- The loop invariant of `mark_attendance`'s matcher: `recognized_id` is
set whenever `min_distance` has left `inf`. -/
theorem flatStep_inv (acc : Option ℚ × Option String) (e : String × ℚ)
    (h : acc.2 = none → acc.1 = none) :
    (flatStep acc e).2 = none → (flatStep acc e).1 = none := by
  rcases flatStep_cases acc e with ⟨hEq, _⟩ | hEq <;> rw [hEq]
  · simp
  · exact h

/-- When the current entry passes the strict distance test, the step leaves
a recognized id behind (given the loop invariant). -/
theorem flatStep_hits (a1 : Option ℚ) (a2 : Option String) (e : String × ℚ)
    (hinv : a2 = none → a1 = none) (hlt : 1 - e.2 < 2/5) :
    ((flatStep (a1, a2) e).2).isSome := by
  cases a2 with
  | some v => exact flatStep_keeps_some (a1, some v) e (by simp)
  | none =>
      have ha1 : a1 = none := hinv rfl
      subst ha1
      unfold flatStep
      simp [hlt]

/-- Characterization of the flat matcher's fold: it ends with a recognized
id exactly when it started with one or some database entry has
`1 - similarity < 0.4`. -/
theorem flatFold_isSome_iff (l : List (String × ℚ)) :
    ∀ acc : Option ℚ × Option String, (acc.2 = none → acc.1 = none) →
      (((l.foldl flatStep acc).2).isSome ↔
        acc.2.isSome ∨ ∃ p s, (p, s) ∈ l ∧ 1 - s < 2/5) := by
  induction l with
  | nil => intro acc _; simp
  | cons e l ih =>
    intro acc hinv
    rw [List.foldl_cons, ih (flatStep acc e) (flatStep_inv acc e hinv)]
    constructor
    · rintro (hs | ⟨p, s, hm, hlt⟩)
      · rcases flatStep_cases acc e with ⟨_, hlt⟩ | hEq
        · exact Or.inr ⟨e.1, e.2, by simp, hlt⟩
        · rw [hEq] at hs
          exact Or.inl hs
      · exact Or.inr ⟨p, s, List.mem_cons_of_mem e hm, hlt⟩
    · rintro (hs | ⟨p, s, hm, hlt⟩)
      · exact Or.inl (flatStep_keeps_some acc e hs)
      · rcases List.mem_cons.mp hm with hme | hml
        · left
          have he2 : 1 - e.2 < 2/5 := by
            have hse : s = e.2 := congrArg Prod.snd hme
            rwa [hse] at hlt
          obtain ⟨a1, a2⟩ := acc
          exact flatStep_hits a1 a2 e hinv he2
        · exact Or.inr ⟨p, s, hml, hlt⟩

/-- C1 counterexample: the same stored embedding at cosine similarity 1/2
to the query, with threshold 1/2 on both sides: the indexed backend's
`_find_best_match` accepts (`similarity >= threshold`, inclusive), while
the flat-file backend's loop rejects (`1 - similarity < 0.4` fails) — the
two backends do not classify the same query the same way for the same
threshold. -/
theorem C1_counterexample :
    (find_best_match (fun _ => (1:ℚ)/2) ((1:ℚ)/2) true [sampleEmbRow] false).1
      = some "p1" ∧
    flatRecognize [("p1", (1:ℚ)/2)] = none := by
  constructor
  · with_unfolding_all decide
  · with_unfolding_all decide

/-- C1 (amended): both backends score by plain cosine similarity, but their
acceptance conventions differ.  The indexed backend accepts the top-1
result exactly when its similarity is `>= threshold` (inclusive); the
flat-file backend instead recognizes someone exactly when some stored entry
satisfies the strict, hardcoded distance test `1 - similarity < 0.4` — so
the two backends can classify the same query differently for the same
threshold. -/
theorem C1_scoring_conventions (score : Row → ℚ) (t : ℚ) (rows : List Row)
    (r : Row) (faceDb : List (String × ℚ))
    (h : milvusTopOne score rows = some r) :
    ((find_best_match score t true rows false).1 =
      if score r ≥ t then some r.registration_number else none) ∧
    ((flatRecognize faceDb).isSome ↔ ∃ p s, (p, s) ∈ faceDb ∧ 1 - s < 2/5) := by
  constructor
  · unfold find_best_match
    rw [h]
    by_cases hge : score r ≥ t <;> simp [hge]
  · have := flatFold_isSome_iff faceDb (none, none) (fun _ => rfl)
    simpa [flatRecognize] using this

/-- C1 witness: a store with one embedding row at similarity 1/2 and
threshold 2/5. -/
theorem C1_witness :
    milvusTopOne (fun _ => (1:ℚ)/2) [sampleEmbRow] = some sampleEmbRow ∧
    (((find_best_match (fun _ => (1:ℚ)/2) ((2:ℚ)/5) true [sampleEmbRow] false).1 =
        if (1:ℚ)/2 ≥ (2:ℚ)/5 then some sampleEmbRow.registration_number
        else none) ∧
     ((flatRecognize [("p1", (1:ℚ)/2)]).isSome ↔
        ∃ p s, (p, s) ∈ [("p1", (1:ℚ)/2)] ∧ 1 - s < 2/5)) :=
  ⟨rfl, C1_scoring_conventions (fun _ => (1:ℚ)/2) ((2:ℚ)/5) [sampleEmbRow]
    sampleEmbRow [("p1", (1:ℚ)/2)] rfl⟩

/-- C3 counterexample: a query scoring exactly the configured threshold
value 0.4 is a match in the indexed backend but Unknown in the flat-file
backend — and the flat backend also yields Unknown at its own effective
similarity bound 0.6 (`distance = 0.4` fails the strict `distance < 0.4`
test), so the inclusive-boundary claim does not hold for both backends. -/
theorem C3_counterexample :
    flatRecognize [("p1", (2:ℚ)/5)] = none ∧
    flatRecognize [("p1", (3:ℚ)/5)] = none ∧
    (find_best_match (fun _ => (2:ℚ)/5) ((2:ℚ)/5) true [sampleEmbRow] false).1
      = some "p1" := by
  refine ⟨?_, ?_, ?_⟩ <;> with_unfolding_all decide

/-- C3 (amended): in the indexed backend the configured threshold is an
inclusive lower bound on cosine similarity — a top-1 score exactly equal to
the threshold is a match and a strictly lower score yields Unknown — while
the flat-file backend applies the strict distance test `1 - score < 0.4`,
under which a score at the boundary yields Unknown. -/
theorem C3_threshold_boundary (score : Row → ℚ) (t : ℚ) (rows : List Row)
    (r : Row) (p : String) (s : ℚ) (h : milvusTopOne score rows = some r) :
    (score r = t → (find_best_match score t true rows false).1
        = some r.registration_number) ∧
    (score r < t → (find_best_match score t true rows false).1 = none) ∧
    (flatRecognize [(p, s)] = if 1 - s < 2/5 then some p else none) := by
  refine ⟨?_, ?_, ?_⟩
  · intro heq
    unfold find_best_match
    rw [h]
    simp [ge_iff_le, le_of_eq heq.symm]
  · intro hlt
    unfold find_best_match
    rw [h]
    simp [not_le.mpr hlt]
  · by_cases hc : 1 - s < 2/5 <;> simp [flatRecognize, flatStep, hc]

/-- C3 witness: one embedding row whose similarity equals the threshold
2/5. -/
theorem C3_witness :
    milvusTopOne (fun _ => (2:ℚ)/5) [sampleEmbRow] = some sampleEmbRow ∧
    (((2:ℚ)/5 = (2:ℚ)/5 →
        (find_best_match (fun _ => (2:ℚ)/5) ((2:ℚ)/5) true [sampleEmbRow]
          false).1 = some sampleEmbRow.registration_number) ∧
     ((2:ℚ)/5 < (2:ℚ)/5 →
        (find_best_match (fun _ => (2:ℚ)/5) ((2:ℚ)/5) true [sampleEmbRow]
          false).1 = none) ∧
     (flatRecognize [("q", (1:ℚ)/2)] =
        if 1 - (1:ℚ)/2 < 2/5 then some "q" else none)) :=
  ⟨rfl, C3_threshold_boundary (fun _ => (2:ℚ)/5) ((2:ℚ)/5) [sampleEmbRow]
    sampleEmbRow "q" ((1:ℚ)/2) rfl⟩

/-- The top-1 fold only ever returns the initial accumulator or an element
of the folded list. -/
theorem topFold_mem (score : Row → ℚ) (l : List Row) :
    ∀ (acc : Option Row) (r : Row),
      l.foldl (topFold score) acc = some r → acc = some r ∨ r ∈ l := by
  induction l with
  | nil => intro acc r h; exact Or.inl h
  | cons x xs ih =>
    intro acc r h
    rw [List.foldl_cons] at h
    rcases ih (topFold score acc x) r h with hstep | hmem
    · cases acc with
      | none =>
          have hx : x = r := by simpa [topFold] using hstep
          exact Or.inr (hx ▸ List.mem_cons_self x xs)
      | some b =>
          by_cases hgt : score x > score b
          · have hx : x = r := by simpa [topFold, hgt] using hstep
            exact Or.inr (hx ▸ List.mem_cons_self x xs)
          · have hb : b = r := by simpa [topFold, hgt] using hstep
            exact Or.inl (congrArg some hb)
    · exact Or.inr (List.mem_cons_of_mem x hmem)

/-- C8: the indexed backend's vector search is restricted by
`expr = "is_embedding == 1"`: whenever the search returns a top-1 row, that
row is a stored row flagged as an embedding row — never a metadata row
(which carries `is_embedding = 0`). -/
theorem C8_search_excludes_metadata_rows (score : Row → ℚ) (rows : List Row)
    (r : Row) (h : milvusTopOne score rows = some r) :
    r ∈ rows ∧ r.is_embedding = 1 ∧ r.is_embedding ≠ 0 := by
  unfold milvusTopOne at h
  rcases topFold_mem score _ none r h with hnone | hmem
  · exact absurd hnone (by simp)
  · obtain ⟨hr, hp⟩ := List.mem_filter.mp hmem
    have h1 : r.is_embedding = 1 := by simpa using hp
    exact ⟨hr, h1, by simp [h1]⟩

/-- C8 witness: a store holding a metadata row (with its dummy zero
vector) ahead of an embedding row; the search returns the embedding row. -/
theorem C8_witness :
    milvusTopOne (fun _ => (1:ℚ)) [sampleMetaRow, sampleEmbRow]
      = some sampleEmbRow ∧
    (sampleEmbRow ∈ [sampleMetaRow, sampleEmbRow] ∧
     sampleEmbRow.is_embedding = 1 ∧ sampleEmbRow.is_embedding ≠ 0) :=
  ⟨rfl, C8_search_excludes_metadata_rows (fun _ => (1:ℚ))
    [sampleMetaRow, sampleEmbRow] sampleEmbRow rfl⟩

/-- C6: when no embedding sample file is available for a registration
number (both glob patterns empty) and the number is not already taken,
`register_person` raises the no-samples `ValueError` before inserting
anything, so the datastore and the samples directory are unchanged. -/
theorem C6_no_samples_store_unchanged (rows : List Row) (fs : List SampleFile)
    (reg fullName mobile today : String)
    (hmeta : (rows.filter
        (fun r => r.registration_number == reg && r.is_embedding == 0)).isEmpty)
    (hfiles : (embeddingFilesFor fs reg).isEmpty) :
    register_person rows fs reg fullName mobile today
      = .error (.noSamples reg) ∧
    registerOrKeep rows fs reg fullName mobile today = (rows, fs) := by
  have h1 : register_person rows fs reg fullName mobile today
      = .error (.noSamples reg) := by
    unfold register_person
    rw [hmeta]
    simp [hfiles]
  refine ⟨h1, ?_⟩
  unfold registerOrKeep
  rw [h1]

/-- C6 witness: an empty store and an empty samples directory. -/
theorem C6_witness :
    (([] : List Row).filter
        (fun r => r.registration_number == "9" && r.is_embedding == 0)).isEmpty ∧
    (embeddingFilesFor [] "9").isEmpty ∧
    (register_person [] [] "9" "Bob" "" "2026-10-12"
        = .error (.noSamples "9") ∧
     registerOrKeep [] [] "9" "Bob" "" "2026-10-12" = ([], [])) :=
  ⟨rfl, rfl, C6_no_samples_store_unchanged [] [] "9" "Bob" "" "2026-10-12"
    rfl rfl⟩

/-- On success, `register_person` leaves the samples directory with exactly
the files whose path is not among the read embedding files' paths. -/
theorem register_person_ok_fs (rows : List Row) (fs : List SampleFile)
    (reg fullName mobile today : String) (rows' : List Row)
    (fs' : List SampleFile)
    (h : register_person rows fs reg fullName mobile today = .ok (rows', fs')) :
    fs' = fs.filter (fun f =>
      !(((embeddingFilesFor fs reg).map (fun x => x.name)).contains f.name)) := by
  unfold register_person at h
  split at h
  · exact absurd h (by simp)
  · dsimp only at h
    split at h
    · exact absurd h (by simp)
    · simp only [Except.ok.injEq, Prod.mk.injEq] at h
      exact h.2.symm

/-- C10: after a successful `register_person`, none of the sample files
read during the call remains in the samples directory — every file matched
by the effective glob pattern has been `os.remove`d (deletion is by
path). -/
theorem C10_sample_files_deleted (rows : List Row) (fs : List SampleFile)
    (reg fullName mobile today : String) (rows' : List Row)
    (fs' : List SampleFile)
    (h : register_person rows fs reg fullName mobile today = .ok (rows', fs')) :
    ∀ f ∈ embeddingFilesFor fs reg, ∀ g ∈ fs', g.name ≠ f.name := by
  have hfs := register_person_ok_fs rows fs reg fullName mobile today rows' fs' h
  intro f hf g hg hEq
  rw [hfs] at hg
  obtain ⟨_, hpred⟩ := List.mem_filter.mp hg
  have hfname : f.name ∈ (embeddingFilesFor fs reg).map (fun x => x.name) :=
    List.mem_map_of_mem _ hf
  rw [hEq] at hpred
  simp [List.contains, hfname] at hpred

/-- C7: a recognition query against an empty store returns Unknown
(`(None, None, 0.0)`), a failed backend search likewise returns Unknown
instead of raising out of `_find_best_match`, and an Unknown match result
leaves the attendance state untouched: no csv row is appended and the
`recognized_persons` set is unchanged. -/
theorem C7_unknown_leaves_ledger_untouched (score : Row → ℚ) (t : ℚ)
    (hasColl searchFails : Bool) (rows : List Row) (markAtt : Bool)
    (fullName now : String) (st : LoopState) :
    find_best_match score t hasColl [] searchFails = (none, none, 0) ∧
    find_best_match score t hasColl rows true = (none, none, 0) ∧
    processFace markAtt none fullName now st = st := by
  refine ⟨?_, ?_, rfl⟩
  · cases searchFails <;> cases hasColl <;>
      simp [find_best_match, milvusTopOne]
  · simp [find_best_match]


/-- Success equation for `register_person` when the registration number is
fresh and sample files exist. -/
theorem register_person_eq_of (rows : List Row) (fs : List SampleFile)
    (reg fullName mobile today : String)
    (hmeta : (rows.filter
        (fun r => r.registration_number == reg && r.is_embedding == 0)).isEmpty)
    (hsamples : (embeddingFilesFor fs reg).isEmpty = false) :
    register_person rows fs reg fullName mobile today =
      .ok (rows
            ++ (embeddingFilesFor fs reg).enum.map
                (embRowOf reg fullName mobile today
                  (embeddingFilesFor fs reg).length)
            ++ [metaRowOf reg fullName mobile today
                  (embeddingFilesFor fs reg).length],
           fs.filter (fun f =>
             !(((embeddingFilesFor fs reg).map (fun x => x.name)).contains
                f.name))) := by
  unfold register_person
  simp [hmeta, hsamples]

/-- C5: enrolling a fresh identity (with at least one sample) and then
removing it leaves the store with no trace of it: no metadata row and no
embedding row for the identity survives, `list_registered_persons` no
longer lists it, and removing it again fails with the not-found error. -/
theorem C5_enroll_remove_round_trip (rows : List Row) (fs : List SampleFile)
    (reg fullName mobile today : String)
    (hfresh : ∀ r ∈ rows, r.registration_number ≠ reg)
    (hsamples : (embeddingFilesFor fs reg).isEmpty = false) :
    ∃ rows' fs' rows'',
      register_person rows fs reg fullName mobile today = .ok (rows', fs') ∧
      remove_person rows' reg = .ok rows'' ∧
      (∀ r ∈ rows'', r.registration_number ≠ reg) ∧
      (∀ p ∈ list_registered_persons rows'', p.1 ≠ reg) ∧
      remove_person rows'' reg = .error (.notFound reg) := by
  have hmeta : (rows.filter
      (fun r => r.registration_number == reg && r.is_embedding == 0)).isEmpty := by
    rw [List.isEmpty_iff, List.filter_eq_nil_iff]
    intro r hr
    simp [hfresh r hr]
  have hreg := register_person_eq_of rows fs reg fullName mobile today hmeta
    hsamples
  set rows' := rows
      ++ (embeddingFilesFor fs reg).enum.map
          (embRowOf reg fullName mobile today (embeddingFilesFor fs reg).length)
      ++ [metaRowOf reg fullName mobile today (embeddingFilesFor fs reg).length]
    with hrows'
  have hmetaMem : metaRowOf reg fullName mobile today
      (embeddingFilesFor fs reg).length ∈
      rows'.filter (fun r => r.registration_number == reg) := by
    apply List.mem_filter.mpr
    constructor
    · rw [hrows']
      simp
    · have hproj : (metaRowOf reg fullName mobile today
          (embeddingFilesFor fs reg).length).registration_number = reg := rfl
      simp [hproj]
  have hresNe :
      (rows'.filter (fun r => r.registration_number == reg)).isEmpty = false := by
    rw [List.isEmpty_eq_false]
    exact List.ne_nil_of_mem hmetaMem
  have hrem : remove_person rows' reg = .ok (rows'.filter (fun r =>
      !(((rows'.filter (fun r => r.registration_number == reg)).map
          (fun r => r.id)).contains r.id))) := by
    unfold remove_person
    simp [hresNe]
  set rows'' := rows'.filter (fun r =>
      !(((rows'.filter (fun r => r.registration_number == reg)).map
          (fun r => r.id)).contains r.id)) with hrows''
  have hno : ∀ r ∈ rows'', r.registration_number ≠ reg := by
    intro r hr hEq
    rw [hrows''] at hr
    obtain ⟨hrmem, hpred⟩ := List.mem_filter.mp hr
    have hrres : r ∈ rows'.filter (fun r => r.registration_number == reg) :=
      List.mem_filter.mpr ⟨hrmem, by simp [hEq]⟩
    have hid : r.id ∈ (rows'.filter
        (fun r => r.registration_number == reg)).map (fun r => r.id) :=
      List.mem_map_of_mem _ hrres
    simp [List.contains, hid] at hpred
  refine ⟨rows', _, rows'', hreg, hrem, hno, ?_, ?_⟩
  · intro p hp
    obtain ⟨r, hrmem, hpe⟩ := List.mem_map.mp hp
    obtain ⟨hr'', _⟩ := List.mem_filter.mp hrmem
    intro hEq
    apply hno r hr''
    rw [← hpe] at hEq
    exact hEq
  · have hnil : rows''.filter (fun r => r.registration_number == reg) = [] := by
      rw [List.filter_eq_nil_iff]
      intro r hr
      simp [hno r hr]
    unfold remove_person
    simp [hnil]

/-- C5 witness: enroll registration number 7 (one sample file) into an
empty store, then remove it. -/
theorem C5_witness :
    (∀ r ∈ ([] : List Row), r.registration_number ≠ "7") ∧
    (embeddingFilesFor [⟨"7_0.npy", [1]⟩] "7").isEmpty = false ∧
    (∃ rows' fs' rows'',
      register_person [] [⟨"7_0.npy", [1]⟩] "7" "Bob" "" "2026-10-12"
        = .ok (rows', fs') ∧
      remove_person rows' "7" = .ok rows'' ∧
      (∀ r ∈ rows'', r.registration_number ≠ "7") ∧
      (∀ p ∈ list_registered_persons rows'', p.1 ≠ "7") ∧
      remove_person rows'' "7" = .error (.notFound "7")) :=
  ⟨by simp, rfl,
   C5_enroll_remove_round_trip [] [⟨"7_0.npy", [1]⟩] "7" "Bob" "" "2026-10-12"
     (by simp) rfl⟩

/-- C10 witness: registering number 7 from the single sample file
`7_0.npy` succeeds and deletes that file from the samples directory. -/
theorem C10_witness :
    register_person [] [⟨"7_0.npy", [1]⟩] "7" "Bob" "" "2026-10-12"
      = .ok ([embRowOf "7" "Bob" "" "2026-10-12" 1 (0, ⟨"7_0.npy", [1]⟩),
              metaRowOf "7" "Bob" "" "2026-10-12" 1], []) ∧
    (∀ f ∈ embeddingFilesFor [⟨"7_0.npy", [1]⟩] "7",
      ∀ g ∈ ([] : List SampleFile), g.name ≠ f.name) :=
  ⟨rfl,
   C10_sample_files_deleted [] [⟨"7_0.npy", [1]⟩] "7" "Bob" "" "2026-10-12"
     [embRowOf "7" "Bob" "" "2026-10-12" 1 (0, ⟨"7_0.npy", [1]⟩),
      metaRowOf "7" "Bob" "" "2026-10-12" 1] [] rfl⟩

/-- C9 (code bug): `_save_metadata` on a non-empty datastore drops the
whole `face_datastore` collection and reinserts only metadata rows, so the
previously stored embedding rows are lost — here a store holding person
`p1`'s enrollment (one embedding row and one metadata row) retains no
embedding row at all after its metadata is saved, contradicting the
specification that embedding rows survive metadata rewrites. -/
theorem C9_save_metadata_loses_embeddings :
    sampleEmbRow ∈ [sampleEmbRow, sampleMetaRow] ∧
    sampleEmbRow.is_embedding = 1 ∧
    save_metadata [sampleEmbRow, sampleMetaRow]
        [("p1", ⟨"Alice", "", "2026-01-15", 1⟩)]
      = [{ id := ""
           embedding := []
           registration_number := "p1"
           full_name := "Alice"
           mobile_number := ""
           registration_date := "2026-01-15"
           is_embedding := 0
           sample_count := 1
           sample_index := -1 }] ∧
    sampleEmbRow ∉ save_metadata [sampleEmbRow, sampleMetaRow]
        [("p1", ⟨"Alice", "", "2026-01-15", 1⟩)] ∧
    (save_metadata [sampleEmbRow, sampleMetaRow]
        [("p1", ⟨"Alice", "", "2026-01-15", 1⟩)]).filter
        (fun r => r.is_embedding == 1) = [] := by
  refine ⟨by simp, rfl, rfl, ?_, rfl⟩
  decide
